import Mathlib

/-!
Shallow embedding of the client-side data-access layer of the
DOFrontpagefix repository: the richer variant (an inline script,
`src/unnamed/part_000`) and the simpler variant (`src/ddb.js`).

The JavaScript is single-threaded with run-to-completion semantics, so each
synchronous region (the body of an async function up to its first `await`,
and each `.then` / `.catch` handler) is modelled as one atomic Lean function
over an explicit state record.  Every fetch operation is split into a
`Start` function (the synchronous body that checks the cache, checks the
pending-request map and, on a miss, registers the new promise) and a
`Settle` function (the handler chain that runs when the underlying
`fetch` promise settles).  Promises are not reified: a caller that joins a
pending request is recorded as such, and receives the value produced by the
corresponding `Settle`.
-/

/-- JavaScript values as far as truthiness and JSON bodies are concerned.
Objects and arrays carry an opaque tag; they are always truthy. -/
inductive JsVal where
  | vnull
  | vundef
  | vbool (b : Bool)
  | vnum (n : Int)
  | vstr (s : String)
  | vobj (tag : Nat)
  deriving DecidableEq, Repr

/-- JavaScript truthiness: `null`, `undefined`, `false`, `0` and the empty
string are falsy; every object is truthy. -/
def JsVal.truthy : JsVal → Bool
  | .vnull => false
  | .vundef => false
  | .vbool b => b
  | .vnum n => n != 0
  | .vstr s => s != ""
  | .vobj _ => true

/-- A cache entry `{ data, timestamp }` as stored by the richer variant. -/
structure Entry (V : Type) where
  data : V
  timestamp : Int
  deriving DecidableEq, Repr

/-- An edge record `{ child_go_id }` returned by `GET /go/children/{id}`. -/
structure Edge where
  child_go_id : String
  deriving DecidableEq, Repr

/-- A strain record `{ mmrrc_id }` returned by `GET /go/{id}/mmrrc-strains`. -/
structure Strain where
  mmrrc_id : String
  deriving DecidableEq, Repr

/-- A JavaScript `Map` keyed by strings, as an association list.  `set`
overwrites in place, `delete` removes, `has` tests membership. -/
abbrev JMap (V : Type) : Type := List (String × V)

namespace JMap

def empty {V : Type} : JMap V := ([] : List (String × V))

def get {V : Type} : JMap V → String → Option V
  | [], _ => none
  | (k, v) :: rest, k' => if k = k' then some v else get rest k'

def setEntry {V : Type} : JMap V → String → V → JMap V
  | [], k, v => [(k, v)]
  | (k0, v0) :: rest, k, v =>
      if k0 = k then (k, v) :: rest else (k0, v0) :: setEntry rest k v

def erase {V : Type} (m : JMap V) (k : String) : JMap V :=
  List.filter (fun p => decide (p.1 ≠ k)) m

def hasKey {V : Type} (m : JMap V) (k : String) : Bool :=
  (m.get k).isSome

end JMap

/-- `CACHE_EXPIRY = 30 * 60 * 1000` (30 minutes, in milliseconds). -/
def CACHE_EXPIRY : Int := 30 * 60 * 1000

/-- The sweep interval: `setInterval(..., 5 * 60 * 1000)` (5 minutes). -/
def SWEEP_INTERVAL : Int := 5 * 60 * 1000

/-- `INITIAL_RENDER_COUNT = 100` in `renderStrains`. -/
def INITIAL_RENDER_COUNT : Nat := 100

/-- The shared mutable state of the richer variant: the three caches, the
pending-request map (only the key set is observable in this model; the
promise a key maps to is identified with the corresponding `Settle`), and
the prefetch queue. -/
structure St where
  termCache : JMap (Entry JsVal)
  childrenCache : JMap (Entry (List Edge))
  strainsCache : JMap (Entry (List Strain))
  pendingRequests : List String
  prefetchQueue : List String
  deriving DecidableEq, Repr

def emptySt : St :=
  { termCache := JMap.empty
    childrenCache := JMap.empty
    strainsCache := JMap.empty
    pendingRequests := []
    prefetchQueue := [] }

/-- Removes a key from the pending-request key set
(`pendingRequests.delete(key)`). -/
def removeKey (l : List String) (k : String) : List String :=
  List.filter (fun x => decide (x ≠ k)) l

def hasPending (st : St) (k : String) : Bool :=
  List.contains st.pendingRequests k

/-- How the underlying `fetch(...)` settles, as observed by the handler
chain: either the transport resolved to a response with status flag `ok`
and a body that parses to `body`, or the chain rejected (transport error,
or `res.json()` threw). -/
inductive FetchOutcome (V : Type) where
  | response (ok : Bool) (body : V)
  | failure
  deriving DecidableEq, Repr

/-- What the synchronous body of a deduplicated fetch returns to its
caller: a cache hit resolved immediately, the existing pending promise for
the key, or a freshly registered promise (which is the only case that
issues a remote call). -/
inductive StartOutcome (V : Type) where
  | hit (v : V)
  | joined (key : String)
  | started (key : String)
  deriving DecidableEq, Repr

/-- Number of remote calls issued by one synchronous fetch body: only a
freshly `started` promise performs a `fetch(...)`. -/
def issuesCall {V : Type} : StartOutcome V → Nat
  | .started _ => 1
  | _ => 0

/-- The value a caller eventually observes, given the value `settled` that
the (unique) in-flight promise for the key settles to: a cache hit is that
cached value, while both the registering caller and every joining caller
await the same promise. -/
def callerResult {V : Type} (o : StartOutcome V) (settled : V) : V :=
  match o with
  | .hit v => v
  | .joined _ => settled
  | .started _ => settled

/-- Synchronous body of `fetchTerm(id)` in the richer variant:
cache check with expiry (`cached && Date.now() - cached.timestamp <
CACHE_EXPIRY`), then the pending-request check on key `term-id`, then
creation and synchronous registration of the new promise. -/
def fetchTermStart (id : String) (now : Int) (st : St) : StartOutcome JsVal × St :=
  let key := "term-" ++ id
  match st.termCache.get id with
  | some cached =>
      if now - cached.timestamp < CACHE_EXPIRY then (.hit cached.data, st)
      else if hasPending st key then (.joined key, st)
      else (.started key, { st with pendingRequests := key :: st.pendingRequests })
  | none =>
      if hasPending st key then (.joined key, st)
      else (.started key, { st with pendingRequests := key :: st.pendingRequests })

/-- Handler chain of the promise registered by `fetchTerm(id)`:
`res.ok ? res.json() : null`, then cache the data if truthy, delete the
pending entry and resolve with the data; the `.catch` deletes the pending
entry, logs, and resolves with `null`. -/
def fetchTermSettle (id : String) (out : FetchOutcome JsVal) (now : Int) (st : St) :
    JsVal × St :=
  let key := "term-" ++ id
  match out with
  | .response ok body =>
      let data := if ok then body else .vnull
      let st1 :=
        if data.truthy then
          { st with termCache := st.termCache.setEntry id ⟨data, now⟩ }
        else st
      (data, { st1 with pendingRequests := removeKey st1.pendingRequests key })
  | .failure =>
      (.vnull, { st with pendingRequests := removeKey st.pendingRequests key })

/-- Synchronous body of `fetchChildren(id)`: identical shape to
`fetchTermStart`, on the children cache and key `children-id`. -/
def fetchChildrenStart (id : String) (now : Int) (st : St) :
    StartOutcome (List Edge) × St :=
  let key := "children-" ++ id
  match st.childrenCache.get id with
  | some cached =>
      if now - cached.timestamp < CACHE_EXPIRY then (.hit cached.data, st)
      else if hasPending st key then (.joined key, st)
      else (.started key, { st with pendingRequests := key :: st.pendingRequests })
  | none =>
      if hasPending st key then (.joined key, st)
      else (.started key, { st with pendingRequests := key :: st.pendingRequests })

/-- Handler chain of the promise registered by `fetchChildren(id)`:
`res.ok ? res.json() : []`, then `childrenCache.set(id, ...)`
unconditionally, delete the pending entry, resolve with the data; the
`.catch` deletes the pending entry and resolves with `[]`. -/
def fetchChildrenSettle (id : String) (out : FetchOutcome (List Edge)) (now : Int)
    (st : St) : List Edge × St :=
  let key := "children-" ++ id
  match out with
  | .response ok body =>
      let data := if ok then body else []
      let st1 := { st with childrenCache := st.childrenCache.setEntry id ⟨data, now⟩ }
      (data, { st1 with pendingRequests := removeKey st1.pendingRequests key })
  | .failure =>
      ([], { st with pendingRequests := removeKey st.pendingRequests key })

/-- Synchronous body of `prefetchStrains(goId)`: if a pending request for
key `strains-goId` exists, return at once (issuing nothing and touching
nothing); otherwise create the promise and register it.  Returns whether a
remote call was issued. -/
def prefetchStrainsStart (goId : String) (st : St) : Bool × St :=
  let key := "strains-" ++ goId
  if hasPending st key then (false, st)
  else (true, { st with pendingRequests := key :: st.pendingRequests })

/-- Handler chain of the promise registered by `prefetchStrains(goId)`:
`res.ok ? res.json() : []`, set the strains cache unconditionally, delete
the pending entry and the prefetch-queue entry; the `.catch` deletes both
as well. -/
def prefetchStrainsSettle (goId : String) (out : FetchOutcome (List Strain))
    (now : Int) (st : St) : St :=
  let key := "strains-" ++ goId
  match out with
  | .response ok body =>
      let strains := if ok then body else []
      { st with
        strainsCache := st.strainsCache.setEntry goId ⟨strains, now⟩
        pendingRequests := removeKey st.pendingRequests key
        prefetchQueue := removeKey st.prefetchQueue goId }
  | .failure =>
      { st with
        pendingRequests := removeKey st.pendingRequests key
        prefetchQueue := removeKey st.prefetchQueue goId }

/-- The `mouseenter` listener installed by `buildNode`:
`if (!strainsCache.has(term.go_id) && !prefetchQueue.has(term.go_id))`
then add the id to the prefetch queue and call `prefetchStrains`.  Note
the guard is a bare `has`, with no expiry check.  Returns whether a remote
call was issued. -/
def buildNodeMouseEnter (goId : String) (st : St) : Bool × St :=
  if !(st.strainsCache.hasKey goId) && !(List.contains st.prefetchQueue goId) then
    let st1 := { st with prefetchQueue := goId :: st.prefetchQueue }
    prefetchStrainsStart goId st1
  else (false, st)

/-- What the synchronous part of `showStrains` does after the label is set:
render from a fresh cache entry, await an existing pending promise for
key `strains-goId`, or register a new promise. -/
inductive ShowStart where
  | renderedFromCache (strains : List Strain)
  | joinedPending (key : String)
  | started (key : String)
  deriving DecidableEq, Repr

/-- Synchronous body of `showStrains(term)`: cache check with expiry, then
the pending check, then creation and registration of a new promise. -/
def showStrainsStart (goId : String) (now : Int) (st : St) : ShowStart × St :=
  let key := "strains-" ++ goId
  match st.strainsCache.get goId with
  | some cached =>
      if now - cached.timestamp < CACHE_EXPIRY then (.renderedFromCache cached.data, st)
      else if hasPending st key then (.joinedPending key, st)
      else (.started key, { st with pendingRequests := key :: st.pendingRequests })
  | none =>
      if hasPending st key then (.joinedPending key, st)
      else (.started key, { st with pendingRequests := key :: st.pendingRequests })

/-- Handler chain of the promise registered by `showStrains`:
`res.ok ? res.json() : []`, set the strains cache, delete the pending
entry, resolve.  The chain has NO `.catch`: on rejection no handler runs,
the state is untouched, and the awaiting `showStrains` body observes the
rejection (its try/catch renders an error message). -/
def showStrainsSettle (goId : String) (out : FetchOutcome (List Strain)) (now : Int)
    (st : St) : Except Unit (List Strain) × St :=
  let key := "strains-" ++ goId
  match out with
  | .response ok body =>
      let strains := if ok then body else []
      (Except.ok strains,
        { st with
          strainsCache := st.strainsCache.setEntry goId ⟨strains, now⟩
          pendingRequests := removeKey st.pendingRequests key })
  | .failure => (Except.error (), st)

/-- One cache namespace swept by the `setInterval` body: every entry with
`now - value.timestamp > CACHE_EXPIRY` is deleted (strict inequality in
the source). -/
def sweepMap {V : Type} (m : JMap (Entry V)) (now : Int) : JMap (Entry V) :=
  List.filter (fun p => decide (¬ (now - p.2.timestamp > CACHE_EXPIRY))) m

/-- The whole `setInterval` sweep body, over the three caches. -/
def sweep (now : Int) (st : St) : St :=
  { st with
    termCache := sweepMap st.termCache now
    childrenCache := sweepMap st.childrenCache now
    strainsCache := sweepMap st.strainsCache now }

/-- One item appended to the strain list by the renderer: a strain link, the
load-more control (carrying the count its label shows), or the
no-strains message. -/
inductive RenderedItem where
  | strainLink (mmrrc_id : String)
  | loadMore (hiddenCount : Nat)
  | emptyMessage
  deriving DecidableEq, Repr

def RenderedItem.isLoadMore : RenderedItem → Bool
  | .loadMore _ => true
  | _ => false

def RenderedItem.isStrainLink : RenderedItem → Bool
  | .strainLink _ => true
  | _ => false

/-- `renderStrains(strains, list)`: clears the list; with no strains it
shows the message; otherwise it renders the first `INITIAL_RENDER_COUNT`
strains and, if more remain, one load-more control labelled with the
remaining count. -/
def renderStrains (strains : List Strain) : List RenderedItem :=
  if strains.length = 0 then [.emptyMessage]
  else
    (strains.take INITIAL_RENDER_COUNT).map (fun s => .strainLink s.mmrrc_id)
      ++ (if strains.length > INITIAL_RENDER_COUNT then
            [.loadMore (strains.length - INITIAL_RENDER_COUNT)]
          else [])

/-- The load-more `onclick` handler: removes the control itself from the
list and appends, in one fragment, the strains from index
`INITIAL_RENDER_COUNT` to the end. -/
def loadMoreClick (strains : List Strain) (rendered : List RenderedItem) :
    List RenderedItem :=
  List.filter (fun it => ! it.isLoadMore) rendered
    ++ (strains.drop INITIAL_RENDER_COUNT).map (fun s => .strainLink s.mmrrc_id)

/-- `fetchTerm(id)` of the simpler variant (`src/ddb.js`): a bare `has`
cache check (no expiry, raw values cached), then `await fetch(...)` with no
try/catch, so a rejection of the transport or of `res.json()` propagates to
the caller; on a response, `res.ok ? await res.json() : null`, cached only
if truthy. -/
def ddbFetchTerm (id : String) (out : FetchOutcome JsVal) (cache : JMap JsVal) :
    Except Unit (JsVal × JMap JsVal) :=
  match cache.get id with
  | some v => .ok (v, cache)
  | none =>
      match out with
      | .failure => .error ()
      | .response ok body =>
          let data := if ok then body else .vnull
          if data.truthy then .ok (data, cache.setEntry id data)
          else .ok (data, cache)

/-! ### Shared helper lemmas -/

theorem JMap.get_setEntry_self {V : Type} (m : JMap V) (k : String) (v : V) :
    (m.setEntry k v).get k = some v := by
  induction m with
  | nil => simp [JMap.setEntry, JMap.get]
  | cons p rest ih =>
      by_cases h : p.1 = k
      · simp [JMap.setEntry, JMap.get, h]
      · simp [JMap.setEntry, JMap.get, h, ih]

theorem mem_removeKey_iff (l : List String) (k x : String) :
    x ∈ removeKey l k ↔ x ∈ l ∧ x ≠ k := by
  simp [removeKey, List.mem_filter]

theorem not_mem_removeKey_self (l : List String) (k : String) :
    k ∉ removeKey l k :=
  fun h => ((mem_removeKey_iff l k k).mp h).2 rfl

theorem contains_removeKey_self (l : List String) (k : String) :
    List.contains (removeKey l k) k = false := by
  simp only [List.contains, List.elem_eq_mem, decide_eq_false_iff_not]
  intro h
  exact ((mem_removeKey_iff l k k).mp h).2 rfl

theorem contains_cons_self (l : List String) (k : String) :
    List.contains (k :: l) k = true := by
  simp [List.contains, List.elem_eq_mem]

/-! ### Claim theorems -/

/-- Claim C3: for every key and every cache namespace (term, children,
strains), a cache read returns the stored value iff the entry is present
and its age `now - timestamp` is strictly below `CACHE_EXPIRY`; when the
entry is absent or at least `CACHE_EXPIRY` old, the read behaves as absent
and the operation proceeds as on a miss (joining the pending request for
the key or starting a new one). -/
theorem cacheRead_fresh_iff (id : String) (now : Int) (st : St) :
    (∀ v : JsVal, (fetchTermStart id now st).1 = .hit v ↔
        ∃ e, st.termCache.get id = some e ∧ now - e.timestamp < CACHE_EXPIRY ∧ v = e.data)
    ∧ (∀ cs : List Edge, (fetchChildrenStart id now st).1 = .hit cs ↔
        ∃ e, st.childrenCache.get id = some e ∧ now - e.timestamp < CACHE_EXPIRY ∧ cs = e.data)
    ∧ (∀ ss : List Strain, (showStrainsStart id now st).1 = .renderedFromCache ss ↔
        ∃ e, st.strainsCache.get id = some e ∧ now - e.timestamp < CACHE_EXPIRY ∧ ss = e.data)
    ∧ (∀ e : Entry JsVal, st.termCache.get id = some e → CACHE_EXPIRY ≤ now - e.timestamp →
        (fetchTermStart id now st).1 = .joined ("term-" ++ id)
        ∨ (fetchTermStart id now st).1 = .started ("term-" ++ id)) := by
  refine ⟨?_, ?_, ?_, ?_⟩
  · intro v
    cases hg : st.termCache.get id with
    | none => simp only [fetchTermStart, hg]; split <;> simp [hg]
    | some e =>
        simp only [fetchTermStart, hg]
        split
        · next hfresh =>
            simp only [Option.some.injEq]
            constructor
            · intro h; exact ⟨e, rfl, hfresh, (StartOutcome.hit.injEq _ _).mp h |>.symm⟩
            · rintro ⟨e', he', hf', hv⟩; cases he'; simp [hv]
        · next hstale =>
            split <;> simp_all
  · intro cs
    cases hg : st.childrenCache.get id with
    | none => simp only [fetchChildrenStart, hg]; split <;> simp [hg]
    | some e =>
        simp only [fetchChildrenStart, hg]
        split
        · next hfresh =>
            simp only [Option.some.injEq]
            constructor
            · intro h; exact ⟨e, rfl, hfresh, (StartOutcome.hit.injEq _ _).mp h |>.symm⟩
            · rintro ⟨e', he', hf', hv⟩; cases he'; simp [hv]
        · next hstale =>
            split <;> simp_all
  · intro ss
    cases hg : st.strainsCache.get id with
    | none => simp only [showStrainsStart, hg]; split <;> simp [hg]
    | some e =>
        simp only [showStrainsStart, hg]
        split
        · next hfresh =>
            simp only [Option.some.injEq]
            constructor
            · intro h; exact ⟨e, rfl, hfresh, (ShowStart.renderedFromCache.injEq _ _).mp h |>.symm⟩
            · rintro ⟨e', he', hf', hv⟩; cases he'; simp [hv]
        · next hstale =>
            split <;> simp_all
  · intro e he hstale
    simp only [fetchTermStart, he]
    have : ¬ (now - e.timestamp < CACHE_EXPIRY) := not_lt.mpr hstale
    simp only [this, if_false]
    split <;> simp

/-- Witness for C3: on a state holding one stale term entry, the read
misses and the operation starts a new request. -/
theorem cacheRead_fresh_iff_witness :
    (fetchTermStart "GO:0008150" CACHE_EXPIRY
        { emptySt with termCache := [("GO:0008150", ⟨.vobj 0, 0⟩)] }).1
      = .joined "term-GO:0008150"
    ∨ (fetchTermStart "GO:0008150" CACHE_EXPIRY
        { emptySt with termCache := [("GO:0008150", ⟨.vobj 0, 0⟩)] }).1
      = .started "term-GO:0008150" :=
  (cacheRead_fresh_iff "GO:0008150" CACHE_EXPIRY
      { emptySt with termCache := [("GO:0008150", ⟨.vobj 0, 0⟩)] }).2.2.2
    ⟨.vobj 0, 0⟩ (by rfl) (by decide)

/-- Claim C9: a fresh cache hit in `fetchTerm`, `fetchChildren` or
`showStrains` returns (or renders) the cached value and leaves the whole
shared state unchanged — the timestamp is not refreshed, the
pending-request map and prefetch queue are untouched — and no remote call
is issued. -/
theorem cache_hit_frame (id : String) (now : Int) (st : St) :
    (∀ e : Entry JsVal, st.termCache.get id = some e →
        now - e.timestamp < CACHE_EXPIRY →
        fetchTermStart id now st = (.hit e.data, st)
        ∧ issuesCall (fetchTermStart id now st).1 = 0)
    ∧ (∀ e : Entry (List Edge), st.childrenCache.get id = some e →
        now - e.timestamp < CACHE_EXPIRY →
        fetchChildrenStart id now st = (.hit e.data, st)
        ∧ issuesCall (fetchChildrenStart id now st).1 = 0)
    ∧ (∀ e : Entry (List Strain), st.strainsCache.get id = some e →
        now - e.timestamp < CACHE_EXPIRY →
        showStrainsStart id now st = (.renderedFromCache e.data, st)) := by
  refine ⟨?_, ?_, ?_⟩
  · intro e he hf
    have h1 : fetchTermStart id now st = (.hit e.data, st) := by
      simp [fetchTermStart, he, hf]
    exact ⟨h1, by simp [h1, issuesCall]⟩
  · intro e he hf
    have h1 : fetchChildrenStart id now st = (.hit e.data, st) := by
      simp [fetchChildrenStart, he, hf]
    exact ⟨h1, by simp [h1, issuesCall]⟩
  · intro e he hf
    simp [showStrainsStart, he, hf]

/-- Witness for C9: a state with one fresh entry in each namespace; the
three hits return the cached data and the unchanged state. -/
theorem cache_hit_frame_witness :
    fetchTermStart "GO:0008150" 5
        { emptySt with
          termCache := [("GO:0008150", ⟨.vobj 1, 0⟩)]
          childrenCache := [("GO:0008150", ⟨[⟨"GO:0000001"⟩], 0⟩)]
          strainsCache := [("GO:0008150", ⟨[⟨"MMRRC:1"⟩], 0⟩)] }
      = (.hit (.vobj 1),
        { emptySt with
          termCache := [("GO:0008150", ⟨.vobj 1, 0⟩)]
          childrenCache := [("GO:0008150", ⟨[⟨"GO:0000001"⟩], 0⟩)]
          strainsCache := [("GO:0008150", ⟨[⟨"MMRRC:1"⟩], 0⟩)] }) :=
  ((cache_hit_frame "GO:0008150" 5
      { emptySt with
        termCache := [("GO:0008150", ⟨.vobj 1, 0⟩)]
        childrenCache := [("GO:0008150", ⟨[⟨"GO:0000001"⟩], 0⟩)]
        strainsCache := [("GO:0008150", ⟨[⟨"MMRRC:1"⟩], 0⟩)] }).1
    ⟨.vobj 1, 0⟩ (by rfl) (by decide)).1

/-- Claim C2: for an uncached id with no pending request, the first
`fetchTerm(id)` call registers the pending entry synchronously in its own
body (before any suspension point) and issues the one remote call; every
further call arriving while the key is pending joins the existing promise,
changes no state and issues no call, so all concurrent callers observe the
same settled result; likewise for `fetchChildren`. -/
theorem fetch_dedup (id : String) (now1 now2 : Int) (st : St)
    (htm : st.termCache.get id = none)
    (htp : hasPending st ("term-" ++ id) = false)
    (hcm : st.childrenCache.get id = none)
    (hcp : hasPending st ("children-" ++ id) = false) :
    ((fetchTermStart id now1 st).1 = .started ("term-" ++ id)
      ∧ (fetchTermStart id now1 st).2
          = { st with pendingRequests := ("term-" ++ id) :: st.pendingRequests }
      ∧ hasPending (fetchTermStart id now1 st).2 ("term-" ++ id) = true
      ∧ (∀ st2 : St, st2.termCache.get id = none →
            hasPending st2 ("term-" ++ id) = true →
            fetchTermStart id now2 st2 = (.joined ("term-" ++ id), st2))
      ∧ issuesCall (fetchTermStart id now1 st).1
          + issuesCall (fetchTermStart id now2 (fetchTermStart id now1 st).2).1 = 1
      ∧ (∀ settled : JsVal,
            callerResult (fetchTermStart id now1 st).1 settled
              = callerResult (fetchTermStart id now2 (fetchTermStart id now1 st).2).1
                  settled))
    ∧ ((fetchChildrenStart id now1 st).1 = .started ("children-" ++ id)
      ∧ (fetchChildrenStart id now1 st).2
          = { st with pendingRequests := ("children-" ++ id) :: st.pendingRequests }
      ∧ hasPending (fetchChildrenStart id now1 st).2 ("children-" ++ id) = true
      ∧ (∀ st2 : St, st2.childrenCache.get id = none →
            hasPending st2 ("children-" ++ id) = true →
            fetchChildrenStart id now2 st2 = (.joined ("children-" ++ id), st2))
      ∧ issuesCall (fetchChildrenStart id now1 st).1
          + issuesCall (fetchChildrenStart id now2 (fetchChildrenStart id now1 st).2).1
          = 1
      ∧ (∀ settled : List Edge,
            callerResult (fetchChildrenStart id now1 st).1 settled
              = callerResult
                  (fetchChildrenStart id now2 (fetchChildrenStart id now1 st).2).1
                  settled)) := by
  have h1 : fetchTermStart id now1 st
      = (.started ("term-" ++ id),
        { st with pendingRequests := ("term-" ++ id) :: st.pendingRequests }) := by
    simp [fetchTermStart, htm, htp]
  have hpend : hasPending
      ({ st with pendingRequests := ("term-" ++ id) :: st.pendingRequests } : St)
      ("term-" ++ id) = true := contains_cons_self _ _
  have hjoin : ∀ st2 : St, st2.termCache.get id = none →
      hasPending st2 ("term-" ++ id) = true →
      fetchTermStart id now2 st2 = (.joined ("term-" ++ id), st2) := by
    intro st2 hm hp
    simp [fetchTermStart, hm, hp]
  have h2 : fetchTermStart id now2 (fetchTermStart id now1 st).2
      = (.joined ("term-" ++ id), (fetchTermStart id now1 st).2) :=
    hjoin _ (by rw [h1]; exact htm) (by rw [h1]; exact hpend)
  have hc1 : fetchChildrenStart id now1 st
      = (.started ("children-" ++ id),
        { st with pendingRequests := ("children-" ++ id) :: st.pendingRequests }) := by
    simp [fetchChildrenStart, hcm, hcp]
  have hcpend : hasPending
      ({ st with pendingRequests := ("children-" ++ id) :: st.pendingRequests } : St)
      ("children-" ++ id) = true := contains_cons_self _ _
  have hcjoin : ∀ st2 : St, st2.childrenCache.get id = none →
      hasPending st2 ("children-" ++ id) = true →
      fetchChildrenStart id now2 st2 = (.joined ("children-" ++ id), st2) := by
    intro st2 hm hp
    simp [fetchChildrenStart, hm, hp]
  have hc2 : fetchChildrenStart id now2 (fetchChildrenStart id now1 st).2
      = (.joined ("children-" ++ id), (fetchChildrenStart id now1 st).2) :=
    hcjoin _ (by rw [hc1]; exact hcm) (by rw [hc1]; exact hcpend)
  refine ⟨⟨?_, ?_, ?_, hjoin, ?_, ?_⟩, ⟨?_, ?_, ?_, hcjoin, ?_, ?_⟩⟩
  · simp [h1]
  · simp [h1]
  · rw [h1]; exact hpend
  · rw [h2, h1]; rfl
  · intro settled; rw [h2, h1]; rfl
  · simp [hc1]
  · simp [hc1]
  · rw [hc1]; exact hcpend
  · rw [hc2, hc1]; rfl
  · intro settled; rw [hc2, hc1]; rfl

/-- Witness for C2: on the empty state, the first call starts the request
and the second joins it, for a total of one remote call. -/
theorem fetch_dedup_witness :
    issuesCall (fetchTermStart "GO:0008150" 0 emptySt).1
      + issuesCall
          (fetchTermStart "GO:0008150" 1 (fetchTermStart "GO:0008150" 0 emptySt).2).1
      = 1 :=
  ((fetch_dedup "GO:0008150" 0 1 emptySt (by rfl) (by rfl) (by rfl)
      (by rfl)).1).2.2.2.2.1

/-- Claim C1 (the code violates it): the pending entry is indeed removed on
every settlement of the term, children and prefetch-strains chains, and on
the success path of the showStrains chain — but the showStrains chain has
no rejection handler, so on a failed strains fetch the key stays in
`pendingRequests` forever: as the concrete scenario shows, a later call for
the same key joins the dead entry and never issues a new remote call. -/
theorem showStrains_failure_pending_stuck :
    (∀ (id : String) (now : Int) (st : St) (out : FetchOutcome JsVal),
        hasPending (fetchTermSettle id out now st).2 ("term-" ++ id) = false)
    ∧ (∀ (id : String) (now : Int) (st : St) (out : FetchOutcome (List Edge)),
        hasPending (fetchChildrenSettle id out now st).2 ("children-" ++ id) = false)
    ∧ (∀ (id : String) (now : Int) (st : St) (out : FetchOutcome (List Strain)),
        hasPending (prefetchStrainsSettle id out now st) ("strains-" ++ id) = false)
    ∧ (∀ (id : String) (now : Int) (st : St) (ok : Bool) (body : List Strain),
        hasPending (showStrainsSettle id (.response ok body) now st).2
          ("strains-" ++ id) = false)
    ∧ ((showStrainsStart "GO:0008150" 0 emptySt).1 = .started "strains-GO:0008150"
      ∧ (showStrainsSettle "GO:0008150" .failure 1000
            (showStrainsStart "GO:0008150" 0 emptySt).2).2.pendingRequests
          = ["strains-GO:0008150"]
      ∧ showStrainsStart "GO:0008150" 2000
            (showStrainsSettle "GO:0008150" .failure 1000
              (showStrainsStart "GO:0008150" 0 emptySt).2).2
          = (.joinedPending "strains-GO:0008150",
            (showStrainsSettle "GO:0008150" .failure 1000
              (showStrainsStart "GO:0008150" 0 emptySt).2).2)) := by
  refine ⟨?_, ?_, ?_, ?_, by rfl, by rfl, by rfl⟩
  · intro id now st out
    cases out with
    | response ok body =>
        simp only [fetchTermSettle]
        split <;> simp [hasPending, not_mem_removeKey_self]
    | failure => simp [fetchTermSettle, hasPending, not_mem_removeKey_self]
  · intro id now st out
    cases out with
    | response ok body =>
        simp [fetchChildrenSettle, hasPending, not_mem_removeKey_self]
    | failure => simp [fetchChildrenSettle, hasPending, not_mem_removeKey_self]
  · intro id now st out
    cases out with
    | response ok body =>
        simp [prefetchStrainsSettle, hasPending, not_mem_removeKey_self]
    | failure => simp [prefetchStrainsSettle, hasPending, not_mem_removeKey_self]
  · intro id now st ok body
    simp [showStrainsSettle, hasPending, not_mem_removeKey_self]

/-- Claim C4 counterexample: a strains-cache entry written at `t = 0` is
expired at `now = 2 * CACHE_EXPIRY`, the id is neither pending nor in the
prefetch set, yet hovering neither marks the id nor issues a fetch,
because the hover guard is `strainsCache.has` with no expiry check. -/
theorem hover_expired_entry_no_prefetch_cex :
    ((2 * CACHE_EXPIRY : Int) - 0 ≥ CACHE_EXPIRY
      ∧ hasPending
          { emptySt with strainsCache := [("GO:0008150", ⟨[⟨"MMRRC:1"⟩], 0⟩)] }
          "strains-GO:0008150" = false
      ∧ List.contains
          ({ emptySt with
              strainsCache := [("GO:0008150", ⟨[⟨"MMRRC:1"⟩], 0⟩)] } : St).prefetchQueue
          "GO:0008150" = false)
    ∧ buildNodeMouseEnter "GO:0008150"
        { emptySt with strainsCache := [("GO:0008150", ⟨[⟨"MMRRC:1"⟩], 0⟩)] }
      = (false, { emptySt with strainsCache := [("GO:0008150", ⟨[⟨"MMRRC:1"⟩], 0⟩)] }) := by
  refine ⟨⟨by decide, by rfl, by rfl⟩, by rfl⟩

/-- Claim C4 as amended: on hover, if the strains cache has NO entry for
the id (an expired entry still counts as cached until swept) and the id is
not in the prefetch set, the id is added to the prefetch set; a leaves
fetch is issued exactly when no pending request for the strains key
already exists (when one exists, prefetchStrains returns early and the
mark stays); and whenever a prefetch settles — success or failure,
whatever the cache outcome — the id leaves the prefetch set. -/
theorem hover_prefetch_amended (goId : String) (st : St)
    (hnc : st.strainsCache.get goId = none)
    (hnq : List.contains st.prefetchQueue goId = false) :
    (List.contains (buildNodeMouseEnter goId st).2.prefetchQueue goId = true)
    ∧ (hasPending st ("strains-" ++ goId) = false →
        (buildNodeMouseEnter goId st).1 = true
        ∧ hasPending (buildNodeMouseEnter goId st).2 ("strains-" ++ goId) = true)
    ∧ (hasPending st ("strains-" ++ goId) = true →
        (buildNodeMouseEnter goId st).1 = false
        ∧ (buildNodeMouseEnter goId st).2
            = { st with prefetchQueue := goId :: st.prefetchQueue })
    ∧ (∀ (out : FetchOutcome (List Strain)) (now : Int) (st2 : St),
        List.contains (prefetchStrainsSettle goId out now st2).prefetchQueue goId
          = false) := by
  have hmk : st.strainsCache.hasKey goId = false := by
    simp [JMap.hasKey, hnc]
  have hnq' : goId ∉ st.prefetchQueue := by simpa using hnq
  refine ⟨?_, ?_, ?_, ?_⟩
  · simp only [buildNodeMouseEnter, prefetchStrainsStart, hasPending]
    simp [hmk, hnq']
    split <;> simp
  · intro hp
    have hp' : ("strains-" ++ goId) ∉ st.pendingRequests := by
      simpa [hasPending] using hp
    simp [buildNodeMouseEnter, hmk, hnq', prefetchStrainsStart, hp', hasPending]
  · intro hp
    have hp' : ("strains-" ++ goId) ∈ st.pendingRequests := by
      simpa [hasPending] using hp
    simp [buildNodeMouseEnter, hmk, hnq', prefetchStrainsStart, hp', hasPending]
  · intro out now st2
    cases out with
    | response ok body => simp [prefetchStrainsSettle, not_mem_removeKey_self]
    | failure => simp [prefetchStrainsSettle, not_mem_removeKey_self]

/-- Witness for the amended C4: on the empty state hovering marks the id
and issues the fetch. -/
theorem hover_prefetch_amended_witness :
    (buildNodeMouseEnter "GO:0008150" emptySt).1 = true
    ∧ hasPending (buildNodeMouseEnter "GO:0008150" emptySt).2 "strains-GO:0008150"
      = true :=
  (hover_prefetch_amended "GO:0008150" emptySt (by rfl) (by rfl)).2.1 (by rfl)

/-- Claim C5 counterexample: a non-success (e.g. 404) response to a
children fetch DOES create a children-cache entry: the empty-list fallback
is cached with a fresh timestamp, contrary to the claim that a non-success
response never creates an entry in the children cache. -/
theorem children_cache_on_404_cex :
    ((fetchChildrenSettle "GO:9999999" (.response false []) 7
        (fetchChildrenStart "GO:9999999" 0 emptySt).2).2).childrenCache.get
        "GO:9999999"
      = some ⟨[], 7⟩ := by rfl

/-- Claim C5 as amended: the term cache gains an entry only from a response
whose parsed value is truthy — a non-success response resolves to null and
writes nothing, and a rejected fetch writes nothing in any namespace — but
the children and strains namespaces DO create an entry, caching the
empty-list fallback, on a non-success response. -/
theorem cache_creation_amended (id : String) (now : Int) (st : St)
    (body : JsVal) (eb : List Edge) (sb : List Strain) :
    ((fetchTermSettle id (.response false body) now st).1 = .vnull
      ∧ (fetchTermSettle id (.response false body) now st).2.termCache = st.termCache)
    ∧ (fetchTermSettle id .failure now st).2.termCache = st.termCache
    ∧ (∀ b : JsVal, b.truthy = false →
        (fetchTermSettle id (.response true b) now st).2.termCache = st.termCache)
    ∧ (∀ b : JsVal, b.truthy = true →
        (fetchTermSettle id (.response true b) now st).2.termCache.get id
          = some ⟨b, now⟩)
    ∧ (fetchChildrenSettle id (.response false eb) now st).2.childrenCache.get id
        = some ⟨[], now⟩
    ∧ (fetchChildrenSettle id .failure now st).2.childrenCache = st.childrenCache
    ∧ (prefetchStrainsSettle id (.response false sb) now st).strainsCache.get id
        = some ⟨[], now⟩
    ∧ (prefetchStrainsSettle id .failure now st).strainsCache = st.strainsCache
    ∧ (showStrainsSettle id (.response false sb) now st).2.strainsCache.get id
        = some ⟨[], now⟩
    ∧ (showStrainsSettle id .failure now st).2.strainsCache = st.strainsCache := by
  refine ⟨⟨rfl, rfl⟩, rfl, ?_, ?_, ?_, rfl, ?_, rfl, ?_, rfl⟩
  · intro b hb
    simp [fetchTermSettle, hb]
  · intro b hb
    simp [fetchTermSettle, hb, JMap.get_setEntry_self]
  · simp [fetchChildrenSettle, JMap.get_setEntry_self]
  · simp [prefetchStrainsSettle, JMap.get_setEntry_self]
  · simp [showStrainsSettle, JMap.get_setEntry_self]

/-- Witness for the amended C5: a truthy node body is cached, at a concrete
input. -/
theorem cache_creation_amended_witness :
    (fetchTermSettle "GO:0008150" (.response true (.vobj 3)) 5 emptySt).2.termCache.get
        "GO:0008150"
      = some ⟨.vobj 3, 5⟩ :=
  (cache_creation_amended "GO:0008150" 5 emptySt .vnull [] []).2.2.2.1 (.vobj 3) rfl

/-- Claim C6 counterexample: an entry written at t = 0 has age exactly
CACHE_EXPIRY at now = CACHE_EXPIRY — at least the TTL, so the claim
demands removal — yet the sweep keeps it, because the source deletes only
entries whose age strictly exceeds the TTL. -/
theorem sweep_at_exact_ttl_keeps_cex :
    (CACHE_EXPIRY - (0 : Int) ≥ CACHE_EXPIRY)
    ∧ (sweep CACHE_EXPIRY
        { emptySt with termCache := [("GO:0008150", ⟨.vobj 1, 0⟩)] }).termCache
      = [("GO:0008150", ⟨.vobj 1, 0⟩)] := by
  exact ⟨by decide, by rfl⟩

/-- Claim C6 as amended: the sweep, run at any time, removes from each of
the three caches exactly the entries whose age strictly exceeds the TTL —
an entry aged exactly TTL survives the sweep, though reads already treat
it as absent — so a sweep at now = TTL + 1ms after a set at t = 0 does
remove that entry, and the sweep interval (5 minutes) is TTL/6, shorter
than the TTL. -/
theorem sweep_amended (now : Int) (st : St) :
    (∀ (k : String) (e : Entry JsVal),
        (k, e) ∈ (sweep now st).termCache
          ↔ (k, e) ∈ st.termCache ∧ now - e.timestamp ≤ CACHE_EXPIRY)
    ∧ (∀ (k : String) (e : Entry (List Edge)),
        (k, e) ∈ (sweep now st).childrenCache
          ↔ (k, e) ∈ st.childrenCache ∧ now - e.timestamp ≤ CACHE_EXPIRY)
    ∧ (∀ (k : String) (e : Entry (List Strain)),
        (k, e) ∈ (sweep now st).strainsCache
          ↔ (k, e) ∈ st.strainsCache ∧ now - e.timestamp ≤ CACHE_EXPIRY)
    ∧ sweepMap [("t0", (⟨.vobj 1, 0⟩ : Entry JsVal))] (CACHE_EXPIRY + 1) = []
    ∧ (fetchTermStart "t0" (CACHE_EXPIRY + 1)
        { emptySt with termCache := [("t0", ⟨.vobj 1, 0⟩)] }).1 = .started "term-t0"
    ∧ SWEEP_INTERVAL * 6 = CACHE_EXPIRY
    ∧ SWEEP_INTERVAL < CACHE_EXPIRY := by
  refine ⟨?_, ?_, ?_, by decide, by decide, by decide, by decide⟩
  · intro k e
    simp [sweep, sweepMap, List.mem_filter, not_lt]
  · intro k e
    simp [sweep, sweepMap, List.mem_filter, not_lt]
  · intro k e
    simp [sweep, sweepMap, List.mem_filter, not_lt]

/-- Witness for the amended C6: a fresh entry survives a sweep run one
millisecond after it was written. -/
theorem sweep_amended_witness :
    ("k", (⟨.vobj 1, 0⟩ : Entry JsVal))
      ∈ (sweep 1 { emptySt with termCache := [("k", ⟨.vobj 1, 0⟩)] }).termCache :=
  ((sweep_amended 1 { emptySt with termCache := [("k", ⟨.vobj 1, 0⟩)] }).1
      "k" ⟨.vobj 1, 0⟩).mpr ⟨by decide, by decide⟩

/-- Claim C7 counterexample: in the simple variant (src/ddb.js) fetchTerm
has no catch, so on a cache miss a transport or parse failure rejects to
the caller instead of resolving to the fallback null. -/
theorem ddb_fetchTerm_raises_cex :
    ddbFetchTerm "GO:0008150" .failure JMap.empty = .error () := by rfl

/-- Claim C7 as amended: in the richer variant a network, transport or
parse failure never raises — fetchTerm resolves to null, fetchChildren to
the empty list, and neither writes its cache — while in the simple variant
(src/ddb.js) a failure on a cache miss rejects to the caller, which must
therefore handle fetch faults itself. -/
theorem fetch_failure_amended (id : String) (now : Int) (st : St) :
    (fetchTermSettle id .failure now st).1 = .vnull
    ∧ (fetchTermSettle id .failure now st).2.termCache = st.termCache
    ∧ (fetchChildrenSettle id .failure now st).1 = []
    ∧ (fetchChildrenSettle id .failure now st).2.childrenCache = st.childrenCache
    ∧ (∀ cache : JMap JsVal, cache.get id = none →
        ddbFetchTerm id .failure cache = .error ()) := by
  refine ⟨rfl, rfl, rfl, rfl, ?_⟩
  intro cache hc
  simp [ddbFetchTerm, hc]

/-- Witness for the amended C7: on the empty cache the simple variant
rejects. -/
theorem fetch_failure_amended_witness :
    ddbFetchTerm "GO:0005575" .failure JMap.empty = .error () :=
  (fetch_failure_amended "GO:0005575" 0 emptySt).2.2.2.2 JMap.empty rfl

theorem filter_isStrainLink_map (xs : List Strain) :
    List.filter (fun it => it.isStrainLink)
        (xs.map (fun s => RenderedItem.strainLink s.mmrrc_id))
      = xs.map (fun s => RenderedItem.strainLink s.mmrrc_id) := by
  induction xs with
  | nil => rfl
  | cons x xs ih => simp [List.filter, RenderedItem.isStrainLink, ih]

theorem countP_isLoadMore_map (xs : List Strain) :
    List.countP (fun it => it.isLoadMore)
        (xs.map (fun s => RenderedItem.strainLink s.mmrrc_id)) = 0 := by
  induction xs with
  | nil => rfl
  | cons x xs ih => simp [List.countP_cons, RenderedItem.isLoadMore, ih]

theorem filter_not_isLoadMore_map (xs : List Strain) :
    List.filter (fun it => ! it.isLoadMore)
        (xs.map (fun s => RenderedItem.strainLink s.mmrrc_id))
      = xs.map (fun s => RenderedItem.strainLink s.mmrrc_id) := by
  induction xs with
  | nil => rfl
  | cons x xs ih => simp [List.filter, RenderedItem.isLoadMore, ih]

/-- Claim C8: with 150 strains the renderer shows exactly the first 100
links plus exactly one load-more control; activating the control renders
all 150 in order, in one batch, and removes the control; with at most 100
strains (and at least one) every strain is rendered immediately and no
control appears. -/
theorem renderStrains_bounded (strains : List Strain) :
    (strains.length = 150 →
        renderStrains strains
          = (strains.take 100).map (fun s => .strainLink s.mmrrc_id)
              ++ [.loadMore 50]
        ∧ List.countP (fun it => it.isLoadMore) (renderStrains strains) = 1
        ∧ (List.filter (fun it => it.isStrainLink) (renderStrains strains)).length
            = 100
        ∧ loadMoreClick strains (renderStrains strains)
            = strains.map (fun s => .strainLink s.mmrrc_id)
        ∧ List.countP (fun it => it.isLoadMore)
            (loadMoreClick strains (renderStrains strains)) = 0)
    ∧ (1 ≤ strains.length → strains.length ≤ 100 →
        renderStrains strains = strains.map (fun s => .strainLink s.mmrrc_id)
        ∧ List.countP (fun it => it.isLoadMore) (renderStrains strains) = 0) := by
  constructor
  · intro h
    have hr : renderStrains strains
        = (strains.take 100).map (fun s => .strainLink s.mmrrc_id)
            ++ [.loadMore 50] := by
      simp [renderStrains, h, INITIAL_RENDER_COUNT]
    have hclick : loadMoreClick strains (renderStrains strains)
        = strains.map (fun s => .strainLink s.mmrrc_id) := by
      simp only [loadMoreClick, INITIAL_RENDER_COUNT]
      rw [hr, List.filter_append, filter_not_isLoadMore_map]
      have h2 : List.filter (fun it => ! RenderedItem.isLoadMore it)
          [RenderedItem.loadMore 50] = ([] : List RenderedItem) := rfl
      rw [h2, List.append_nil, ← List.map_append, List.take_append_drop]
    refine ⟨hr, ?_, ?_, hclick, ?_⟩
    · rw [hr, List.countP_append, countP_isLoadMore_map]
      rfl
    · rw [hr, List.filter_append, filter_isStrainLink_map]
      have h2 : List.filter (fun it => RenderedItem.isStrainLink it)
          [RenderedItem.loadMore 50] = ([] : List RenderedItem) := rfl
      rw [h2, List.append_nil, List.length_map, List.length_take, h]
      decide
    · rw [hclick]
      exact countP_isLoadMore_map strains
  · intro h1 h100
    have hne : strains.length ≠ 0 := by omega
    have hle : ¬ (strains.length > INITIAL_RENDER_COUNT) := by
      simp [INITIAL_RENDER_COUNT]; omega
    have htake : strains.take INITIAL_RENDER_COUNT = strains :=
      List.take_of_length_le (by simpa [INITIAL_RENDER_COUNT] using h100)
    have hr : renderStrains strains = strains.map (fun s => .strainLink s.mmrrc_id) := by
      simp [renderStrains, hne, hle, htake]
    refine ⟨hr, ?_⟩
    rw [hr]
    exact countP_isLoadMore_map strains

/-- Witness for C8: 150 identical strains render as 100 links and one
control, and the control click yields all 150 links; 50 strains render in
full with no control. -/
theorem renderStrains_bounded_witness :
    loadMoreClick (List.replicate 150 (⟨"MMRRC:1"⟩ : Strain))
        (renderStrains (List.replicate 150 (⟨"MMRRC:1"⟩ : Strain)))
      = (List.replicate 150 (⟨"MMRRC:1"⟩ : Strain)).map
          (fun s => .strainLink s.mmrrc_id)
    ∧ renderStrains (List.replicate 50 (⟨"MMRRC:2"⟩ : Strain))
      = (List.replicate 50 (⟨"MMRRC:2"⟩ : Strain)).map
          (fun s => .strainLink s.mmrrc_id) :=
  ⟨((renderStrains_bounded (List.replicate 150 ⟨"MMRRC:1"⟩)).1
      (by simp)).2.2.2.1,
    ((renderStrains_bounded (List.replicate 50 ⟨"MMRRC:2"⟩)).2
      (by simp) (by simp)).1⟩

/-- Claim C10: started from empty caches, when the remote call resolves to
a response, the richer fetchTerm and the simple-variant fetchTerm resolve
to the same value — the parsed body when ok, null otherwise — and each
creates a term-cache entry exactly when that value is truthy. -/
theorem fetchTerm_variants_agree (id : String) (ok : Bool) (body : JsVal) (now : Int) :
    (fetchTermSettle id (.response ok body) now (fetchTermStart id now emptySt).2).1
      = (if ok then body else JsVal.vnull)
    ∧ ddbFetchTerm id (.response ok body) JMap.empty
      = .ok ((if ok then body else JsVal.vnull),
          if (if ok then body else JsVal.vnull).truthy then
            JMap.setEntry JMap.empty id (if ok then body else JsVal.vnull)
          else JMap.empty)
    ∧ (((fetchTermSettle id (.response ok body) now
          (fetchTermStart id now emptySt).2).2.termCache.get id).isSome
        = (if ok then body else JsVal.vnull).truthy)
    ∧ (∀ (v : JsVal) (c : JMap JsVal),
        ddbFetchTerm id (.response ok body) JMap.empty = .ok (v, c) →
        (c.get id).isSome = v.truthy) := by
  have hstart : fetchTermStart id now emptySt
      = (.started ("term-" ++ id), { emptySt with pendingRequests := ["term-" ++ id] }) := by
    rfl
  have hddb : ddbFetchTerm id (.response ok body) JMap.empty
      = .ok ((if ok then body else JsVal.vnull),
          if (if ok then body else JsVal.vnull).truthy then
            JMap.setEntry JMap.empty id (if ok then body else JsVal.vnull)
          else JMap.empty) := by
    by_cases hb : (if ok then body else JsVal.vnull).truthy
    · simp [ddbFetchTerm, JMap.empty, JMap.get, hb]
    · simp [ddbFetchTerm, JMap.empty, JMap.get, hb]
  refine ⟨?_, hddb, ?_, ?_⟩
  · rw [hstart]
    by_cases hb : (if ok then body else JsVal.vnull).truthy
    · simp [fetchTermSettle, hb]
    · simp [fetchTermSettle, hb]
  · rw [hstart]
    by_cases hb : (if ok then body else JsVal.vnull).truthy
    · simp [fetchTermSettle, hb, JMap.get_setEntry_self, emptySt]
    · simp [fetchTermSettle, hb, emptySt, JMap.empty, JMap.get]
  · intro v c h
    rw [hddb] at h
    injection h with h1
    injection h1 with hv hc
    subst hv
    subst hc
    by_cases hb : (if ok then body else JsVal.vnull).truthy
    · simp [hb, JMap.get_setEntry_self]
    · simp [hb, JMap.empty, JMap.get]

/-- Witness for C10: a truthy node body observed through the simple
variant is cached iff truthy, at a concrete input. -/
theorem fetchTerm_variants_agree_witness :
    ((JMap.get [("GO:0008150", JsVal.vobj 3)] "GO:0008150").isSome
      = (JsVal.vobj 3).truthy) :=
  (fetchTerm_variants_agree "GO:0008150" true (.vobj 3) 0).2.2.2 (.vobj 3)
    [("GO:0008150", JsVal.vobj 3)] (by rfl)
